import Mathlib

/-!
Shallow embedding of the Arc agent runtime (Python) and verification of
its specification claims.  Each definition mirrors one function or
constant of the source tree; theorems state the specification sentences
and settle them against the embedded code.
-/

namespace Arc

/-- Mirrors `arc.core.types.SecurityDecision` (a dataclass with defaults
`requires_approval=False`, `user_response=None`, `remembered=False`). -/
structure SecurityDecision where
  allowed : Bool
  reason : String
  requires_approval : Bool := false
  user_response : Option String := none
  remembered : Bool := false
deriving Repr, DecidableEq

/-- Mirrors `arc.core.config.SecurityConfig` (the three policy lists). -/
structure SecurityConfig where
  auto_allow : List String
  always_ask : List String
  never_allow : List String
deriving Repr, DecidableEq

/-- The remembered-decision map `SecurityEngine._remembered`:
`(tool_name, capability_str) → decision`.  A Python dict keyed by the
pair, modelled as a lookup function. -/
abbrev RememberedMap : Type := String × String → Option String

/-- Mirrors `SecurityEngine._check_capability` (engine.py lines 148-203):
never_allow, then remembered decisions, then auto_allow, then always_ask,
then the unknown-capability default. -/
def checkCapability (cfg : SecurityConfig) (rem : RememberedMap)
    (tool_name cap : String) : SecurityDecision :=
  if cap ∈ cfg.never_allow then
    { allowed := false
      reason := "policy:never_allow (" ++ cap ++ ")"
      requires_approval := false }
  else
    match rem (tool_name, cap) with
    | some v =>
      if v = "allow_always" then
        { allowed := true
          reason := "user:remembered_allow (" ++ cap ++ ")"
          remembered := true }
      else if v = "deny_always" then
        { allowed := false
          reason := "user:remembered_deny (" ++ cap ++ ")"
          remembered := true
          requires_approval := false }
      else checkCapabilityTail cfg cap
    | none => checkCapabilityTail cfg cap
where
  /-- Layers 3-5 of `_check_capability`: auto_allow, always_ask, and the
  unknown-capability default (both of the latter require approval). -/
  checkCapabilityTail (cfg : SecurityConfig) (cap : String) : SecurityDecision :=
    if cap ∈ cfg.auto_allow then
      { allowed := true
        reason := "policy:auto_allow (" ++ cap ++ ")" }
    else if cap ∈ cfg.always_ask then
      { allowed := false
        reason := "policy:always_ask (" ++ cap ++ ")"
        requires_approval := true }
    else
      { allowed := false
        reason := "policy:unknown_capability (" ++ cap ++ ")"
        requires_approval := true }

/-- The short-circuit test of the `check_tool` loop:
`not decision.allowed or decision.requires_approval` for the capability's
decision (engine.py line 97). -/
def shortCircuits (cfg : SecurityConfig) (rem : RememberedMap)
    (tool_name cap : String) : Bool :=
  !(checkCapability cfg rem tool_name cap).allowed ||
    (checkCapability cfg rem tool_name cap).requires_approval

/-- The capability loop of `SecurityEngine.check_tool` (engine.py lines
90-111): walk the required capabilities, return the first denial or
approval-required decision, otherwise remember the last allowing
decision. -/
def checkToolGo (cfg : SecurityConfig) (rem : RememberedMap)
    (tool_name : String) :
    List String → Option SecurityDecision → SecurityDecision
  | [], some last => last
  | [], none =>
    { allowed := true, reason := "policy:all_allowed" }
  | cap :: rest, last =>
    if shortCircuits cfg rem tool_name cap then
      checkCapability cfg rem tool_name cap
    else
      let _ := last
      checkToolGo cfg rem tool_name rest (some (checkCapability cfg rem tool_name cap))

/-- Mirrors `SecurityEngine.check_tool` (engine.py lines 71-111).  The
tool's required capabilities are passed as the list the Python `for`
loop iterates over. -/
def checkTool (cfg : SecurityConfig) (rem : RememberedMap)
    (tool_name : String) (caps : List String) : SecurityDecision :=
  if caps.isEmpty then
    { allowed := true, reason := "no_capabilities_required" }
  else
    checkToolGo cfg rem tool_name caps none

/-- Python truthiness of `str | None`: `None` and `""` are falsy. -/
def truthyStrOpt : Option String → Bool
  | none => false
  | some s => s ≠ ""

/-- Insert into the remembered-decision map
(`SecurityEngine.remember_decision`, dict assignment). -/
def rememberDecision (rem : RememberedMap) (tool_name cap decision : String) :
    RememberedMap :=
  fun k => if k = (tool_name, cap) then some decision else rem k

/-- Mirrors `SecurityEngine.check_and_approve` (engine.py lines 113-146).
The interactive approval flow's eventual answer is passed in as
`approval_decision`; the returned triple is (decision, whether the
approval flow was invoked, updated remembered map). -/
def checkAndApprove (cfg : SecurityConfig) (rem : RememberedMap)
    (tool_name : String) (caps : List String)
    (approval_decision : SecurityDecision) :
    SecurityDecision × Bool × RememberedMap :=
  let d := checkTool cfg rem tool_name caps
  if d.allowed ∨ ¬d.requires_approval then (d, false, rem)
  else
    let rem' :=
      if approval_decision.remembered ∧
          truthyStrOpt approval_decision.user_response then
        caps.foldl
          (fun r c =>
            rememberDecision r tool_name c
              (approval_decision.user_response.getD ""))
          rem
      else rem
    (approval_decision, true, rem')

/-! ### Worker skill: delegate_task argument handling (worker.py) -/

/-- Constant `WorkerSkill._MAX_TIMEOUT` (worker.py line 243). -/
def workerMaxTimeout : Int := 1800

/-- Constant `WorkerSkill._MAX_ITERATIONS` (worker.py line 244). -/
def workerMaxIterations : Int := 50

/-- The fallback `execute_tool` passes for a missing `timeout_seconds`
argument: `arguments.get("timeout_seconds", 120)` (worker.py line 214). -/
def delegateTimeoutFallback : Int := 120

/-- The fallback `execute_tool` passes for a missing `max_iterations`
argument: `arguments.get("max_iterations", 15)` (worker.py line 215). -/
def delegateIterationsFallback : Int := 15

/-- Effective timeout of a `delegate_task` call: the `execute_tool`
default composed with the clamp in `_delegate_task`
(`max(10, min(int(timeout_seconds), self._MAX_TIMEOUT))`). -/
def delegateEffectiveTimeout (arg : Option Int) : Int :=
  max 10 (min (arg.getD delegateTimeoutFallback) workerMaxTimeout)

/-- Effective max_iterations of a `delegate_task` call: the
`execute_tool` default composed with the clamp in `_delegate_task`
(`max(1, min(int(max_iterations), self._MAX_ITERATIONS))`). -/
def delegateEffectiveIterations (arg : Option Int) : Int :=
  max 1 (min (arg.getD delegateIterationsFallback) workerMaxIterations)

/-! ### Notifications: Notification, CLIChannel, router -/

/-- Mirrors `arc.notifications.base.Notification` (fired_at omitted:
the claims never mention it). -/
structure Notification where
  job_id : String
  job_name : String
  content : String
deriving Repr, DecidableEq

/-- Mirrors `CLIChannel.deliver` (cli.py lines 44-48): the queue is the
list of already-enqueued notifications, the result is (return value,
queue afterwards). -/
def cliDeliver (active : Bool) (queue : List Notification)
    (n : Notification) : Bool × List Notification :=
  if ¬active then (false, queue)
  else (true, queue ++ [n])

/-- A registered notification channel as the router sees it:
`name`, `is_external`, `is_active`, and what its `deliver` coroutine
would do for the routed notification (`none` = raises an exception,
`some b` = returns `b`). -/
structure NChannel where
  name : String
  is_external : Bool
  is_active : Bool
  deliver_result : Option Bool
deriving Repr, DecidableEq

/-- Mirrors `NotificationRouter.route` (router.py lines 55-94), returning
the sequence of channels whose `deliver` is invoked, in invocation
order: active external channels first, then — only when no external
delivery succeeded — active CLI channels, then every file channel
(file channels are delivered to unconditionally). -/
def routeInvocations (channels : List NChannel) : List NChannel :=
  let external_channels := channels.filter (fun c => c.is_external)
  let cli_channels :=
    channels.filter (fun c => !c.is_external && c.name != "file")
  let file_channels := channels.filter (fun c => c.name == "file")
  let external_invoked := external_channels.filter (fun c => c.is_active)
  let external_delivered :=
    external_invoked.any (fun c => c.deliver_result == some true)
  let cli_invoked :=
    if external_delivered then [] else cli_channels.filter (fun c => c.is_active)
  external_invoked ++ cli_invoked ++ file_channels

/-! ### Approval flow (approval.py) -/

/-- Default `timeout` of `ApprovalFlow.__init__` (approval.py line 58). -/
def approvalFlowDefaultTimeout : Nat := 300

/-- The state of one pending request's `asyncio.Future`:
`none` = not yet done, `some r` = resolved with response `r`. -/
abbrev FutureState : Type := Option String

/-- The map `ApprovalFlow._pending`: `request_id → ApprovalRequest` with only the
future's state retained, modelled as a lookup function (`none` = id not
pending). -/
abbrev PendingMap : Type := String → Option FutureState

/-- Mirrors `ApprovalFlow.resolve_approval` (approval.py lines 132-154):
unknown id → `False`; future not done → set the result and return
`True`; future already done → `False`. -/
def resolveApproval (pending : PendingMap) (request_id response : String) :
    Bool × PendingMap :=
  match pending request_id with
  | none => (false, pending)
  | some (some r) => let _ := r; (false, pending)
  | some none =>
    (true, fun k => if k = request_id then some (some response) else pending k)

/-- The `asyncio.TimeoutError` branch of `ApprovalFlow.request_approval`
(approval.py lines 118-125): pop the pending entry and return the
`approval_timeout` denial. -/
def approvalTimeout (pending : PendingMap) (request_id : String) :
    SecurityDecision × PendingMap :=
  ({ allowed := false
     reason := "approval_timeout"
     requires_approval := false },
   fun k => if k = request_id then none else pending k)

/-! ### Context composer (memory/context.py) -/

/-- A chat message, as much of `arc.core.types.Message` as the composer
claims need: the role and the content. -/
structure Message where
  role : String
  content : String
deriving Repr, DecidableEq

/-- The `Message.system` constructor. -/
def Message.system (content : String) : Message :=
  { role := "system", content := content }

/-- The truncation loop of `ContextComposer.compose` (context.py lines
137-169): try windows `w, w-1, …, 1` of most-recent non-system messages
after the augmented system prompt; return the first candidate within
budget, and the system prompt alone when none fits.  `tc` is the
injected token counter, `budget` the composer's
`max_tokens - reserve_output`. -/
def composeGo (tc : List Message → Int) (budget : Int)
    (aug other : List Message) : Nat → List Message
  | 0 => aug
  | w + 1 =>
    let candidate := aug ++ other.drop (other.length - (w + 1))
    if tc candidate ≤ budget then candidate
    else composeGo tc budget aug other w

/-- Mirrors `ContextComposer.compose` (context.py lines 73-169) for a
session whose system prompt is `system_prompt`, with the Tier 3 / Tier 2
texts the memory manager produced passed in as `core_text` /
`episodic_text` (empty when there is no memory manager). -/
def compose (tc : List Message → Int) (budget : Int)
    (system_prompt core_text episodic_text : String)
    (other : List Message) (recent_window : Nat) : List Message :=
  let sp := system_prompt ++ core_text ++ episodic_text
  let aug := if sp = "" then [] else [Message.system sp]
  let all := aug ++ other
  if tc all ≤ budget then all
  else composeGo tc budget aug other (min recent_window other.length)

/-! ### Event bus middleware chain (core/bus.py) -/

/-- A minimal bus event: type and source strings. -/
structure Event where
  type : String
  source : String
deriving Repr, DecidableEq

/-- A trace of observed processing steps. -/
abbrev Trace : Type := List String

/-- The continuation type `MiddlewareNext`, with the observation trace
threaded explicitly (the shallow embedding of the middleware's awaited
side effects). -/
abbrev Next : Type := Event → Trace → Event × Trace

/-- The middleware type `MiddlewareFunc`: receives the event and the
next handler in the chain. -/
abbrev Middleware : Type := Event → Next → Trace → Event × Trace

/-- Mirrors `EventBus._build_chain` (bus.py lines 114-150): starting from
the final `dispatch` handler, wrap it with each middleware from the last
registered to the first, so the first-registered middleware is
outermost. -/
def buildChain (middleware : List Middleware) (dispatch : Next) : Next :=
  middleware.foldr (fun mw next => fun e tr => mw e next tr) dispatch

/-- An instrumented middleware that records `<name>-enter` before
delegating and `<name>-exit` after, passing the event through — the
shape of the A/B/C middlewares in the middleware-order claim. -/
def tracingMW (name : String) : Middleware :=
  fun e next tr =>
    let tr1 := tr ++ [name ++ "-enter"]
    let r := next e tr1
    (r.1, r.2 ++ [name ++ "-exit"])

/-- The final `dispatch` handler of `_build_chain`, instrumented to
record the subscriber dispatch. -/
def tracingDispatch : Next :=
  fun e tr => (e, tr ++ ["dispatch"])

/-- Running `EventBus.emit` (bus.py lines 86-96) on an instrumented bus: build
the chain once and run the event through it, starting from the empty
trace. -/
def busEmitTrace (names : List String) (e : Event) : Event × Trace :=
  buildChain (names.map tracingMW) tracingDispatch e []

/-! ### AgentLoop construction and the worker background flow
(agent/loop.py, skills/builtin/worker.py) -/

/-- The keyword parameters accepted by `AgentLoop.__init__`
(loop.py lines 79-88).  Note: there is no `agent_id` parameter. -/
def agentLoopInitParams : List String :=
  ["kernel", "llm", "skill_manager", "security", "system_prompt",
   "config", "memory_manager"]

/-- Python keyword-argument binding for `AgentLoop.__init__`: a call
whose keyword names all appear among the accepted parameters binds;
any unexpected keyword raises `TypeError`. -/
def agentLoopInit (kwargs : List String) : Except String Unit :=
  if kwargs.all (fun k => agentLoopInitParams.contains k) then Except.ok ()
  else Except.error
    "TypeError: AgentLoop.__init__ got an unexpected keyword argument"

/-- The keyword names `WorkerSkill._run_worker` passes when constructing
the worker's `AgentLoop` (worker.py lines 399-412) — including
`agent_id`. -/
def workerLoopKwargs : List String :=
  ["kernel", "llm", "skill_manager", "security", "system_prompt",
   "config", "memory_manager", "agent_id"]

/-- The `source` field `AgentLoop._emit` stamps on every event it emits
(loop.py line 346): the literal `"agent"`. -/
def agentEmitSource : String := "agent"

/-- One `agent:task_complete` event payload (worker.py lines 358-366). -/
structure TaskCompleteData where
  task_id : String
  task_name : String
  success : Bool
deriving Repr, DecidableEq

/-- One worker attempt, `WorkerSkill._run_worker` (worker.py lines
377-418): first the `AgentLoop` construction (which raises when a
keyword is not accepted), then — only if construction succeeded — the
platform run, whose outcome `(content, error)` is supplied by the
`platform_run` oracle. -/
def runWorkerModel (platform_run : String → String × Option String)
    (task_id : String) : Except String (String × Option String) :=
  match agentLoopInit workerLoopKwargs with
  | Except.error e => Except.error e
  | Except.ok _ => Except.ok (platform_run task_id)

/-- Mirrors `WorkerSkill._run_and_notify` (worker.py lines 318-375) over
an arbitrary worker-attempt function `runW`; an uncaught exception in an
attempt propagates (there is no try/except in the coroutine).  On normal
completion it returns the emitted `agent:task_complete` payloads and
the notifications routed. -/
def runAndNotify (runW : String → Except String (String × Option String))
    (task_id task_name : String) :
    Except String (List TaskCompleteData × List Notification) := do
  let attempt1 ← runW task_id
  let result ←
    if attempt1.2.isSome then runW (task_id ++ "_retry")
    else pure attempt1
  let notification_content :=
    match result.2 with
    | some err => "❌ Worker '" ++ task_name ++ "' failed: " ++ err
    | none =>
      "✅ Worker '" ++ task_name ++ "' completed:\n\n" ++
        (if result.1 = "" then "(no output)" else result.1)
  pure
    ([{ task_id := task_id, task_name := task_name,
        success := result.2 = none }],
     [{ job_id := task_id, job_name := task_name,
        content := notification_content }])

/-! ## Theorems -/

/-- Appending to a non-empty string yields a non-empty string. -/
theorem string_append_ne_empty {s : String} (t : String) (h : s ≠ "") :
    s ++ t ≠ "" := by
  intro hc
  apply h
  have h2 := congrArg String.length hc
  rw [String.length_append] at h2
  have h0 : ("" : String).length = 0 := rfl
  rw [h0] at h2
  have h3 : s.length = 0 := by omega
  cases s with
  | mk d =>
    cases d with
    | nil => rfl
    | cons a l => exact absurd h3 (by simp [String.length])

/-- C10: `CLIChannel.deliver` enqueues the notification and returns
`true` exactly when the channel is active; when inactive it returns
`false` and leaves the pending queue unchanged. -/
theorem c10_cli_deliver_queues_iff_active
    (queue : List Notification) (n : Notification) :
    cliDeliver true queue n = (true, queue ++ [n]) ∧
    cliDeliver false queue n = (false, queue) := by
  constructor <;> rfl

/-- C9: a tool with an empty required-capability set is allowed with
reason `no_capabilities_required` by `check_tool` under every
configuration and remembered map, and `check_and_approve` returns the
same decision without ever invoking the interactive approval flow or
touching the remembered decisions. -/
theorem c9_no_capabilities_bypasses_policy
    (cfg : SecurityConfig) (rem : RememberedMap) (tool_name : String)
    (approval_decision : SecurityDecision) :
    checkTool cfg rem tool_name [] =
      { allowed := true, reason := "no_capabilities_required" } ∧
    checkAndApprove cfg rem tool_name [] approval_decision =
      ({ allowed := true, reason := "no_capabilities_required" },
        false, rem) := by
  constructor <;> rfl

/-- C3 counterexample: with `timeout_seconds` and `max_iterations`
omitted, the effective values are 120 and 15 — not the 300 and 20 the
claim states. -/
theorem c3_defaults_counterexample :
    delegateEffectiveTimeout none ≠ 300 ∧
    delegateEffectiveIterations none ≠ 20 := by
  constructor <;> decide

/-- C3 (amended): every `delegate_task` call has its effective
`timeout_seconds` clamped into `[10, 1800]` and its effective
`max_iterations` clamped into `[1, 50]`; when the arguments omit them,
the effective values are `timeout_seconds = 120` and
`max_iterations = 15`. -/
theorem c3_delegate_clamping_and_defaults :
    (∀ t : Option Int,
      10 ≤ delegateEffectiveTimeout t ∧ delegateEffectiveTimeout t ≤ 1800) ∧
    (∀ m : Option Int,
      1 ≤ delegateEffectiveIterations m ∧
        delegateEffectiveIterations m ≤ 50) ∧
    delegateEffectiveTimeout none = 120 ∧
    delegateEffectiveIterations none = 15 := by
  refine ⟨fun t => ⟨le_max_left _ _, ?_⟩, fun m => ⟨le_max_left _ _, ?_⟩,
    by decide, by decide⟩
  · exact max_le (by norm_num) (min_le_right _ _)
  · exact max_le (by norm_num) (min_le_right _ _)

/-- C2: evaluating the code at the claimed construction.
`AgentLoop.__init__` accepts no `agent_id` keyword, so the construction
`AgentLoop(..., agent_id="worker:<label>")` performed by
`WorkerSkill._run_worker` raises `TypeError`; and the `source` stamped
by `AgentLoop._emit` is the literal `"agent"`, not the agent's
`agent_id` (e.g. not `"worker:research"` and not `"main"`). -/
theorem c2_agent_id_keyword_rejected_and_source_constant :
    agentLoopInit workerLoopKwargs =
      Except.error
        "TypeError: AgentLoop.__init__ got an unexpected keyword argument" ∧
    agentLoopInit ["kernel", "llm", "skill_manager", "security",
      "system_prompt", "config", "memory_manager"] = Except.ok () ∧
    agentEmitSource = "agent" ∧
    agentEmitSource ≠ "worker:research" ∧
    agentEmitSource ≠ "main" := by
  refine ⟨rfl, rfl, rfl, by decide, by decide⟩

/-- C1: evaluating the background flow at the failing input.  Because
every worker attempt constructs `AgentLoop` with the unaccepted
`agent_id` keyword, the first attempt of `_run_and_notify` raises
`TypeError` before the platform ever runs; the coroutine has no
exception handler, so — for every possible platform outcome — no retry
happens, no `agent:task_complete` event is emitted, no notification is
routed, and the exception propagates out of the background task. -/
theorem c1_background_worker_flow_raises
    (platform_run : String → String × Option String)
    (task_id task_name : String) :
    runAndNotify (runWorkerModel platform_run) task_id task_name =
      Except.error
        "TypeError: AgentLoop.__init__ got an unexpected keyword argument" := by
  have h : runWorkerModel platform_run task_id =
      Except.error
        "TypeError: AgentLoop.__init__ got an unexpected keyword argument" := by
    unfold runWorkerModel
    rfl
  unfold runAndNotify
  rw [h]
  rfl

/-- C5: for a pending approval request whose future is unresolved, the
first `resolve_approval` call completes the future with the response and
returns `true`; any subsequent call for the same id returns `false` and
changes nothing; the timeout path returns the `approval_timeout` denial
and removes the pending entry, after which `resolve_approval` returns
`false`; and the configured timeout defaults to 300 seconds. -/
theorem c5_approval_resolution_and_timeout
    (pending : PendingMap) (rid r : String)
    (h : pending rid = some none) :
    (resolveApproval pending rid r).1 = true ∧
    ((resolveApproval pending rid r).2 rid = some (some r)) ∧
    (∀ r', (resolveApproval (resolveApproval pending rid r).2 rid r').1 = false) ∧
    (∀ r' k, (resolveApproval (resolveApproval pending rid r).2 rid r').2 k =
      (resolveApproval pending rid r).2 k) ∧
    ((approvalTimeout pending rid).1 =
      { allowed := false, reason := "approval_timeout",
        requires_approval := false }) ∧
    ((approvalTimeout pending rid).2 rid = none) ∧
    (∀ r', (resolveApproval (approvalTimeout pending rid).2 rid r').1 = false) ∧
    (∀ r' k, (resolveApproval (approvalTimeout pending rid).2 rid r').2 k =
      (approvalTimeout pending rid).2 k) ∧
    approvalFlowDefaultTimeout = 300 := by
  have h1 : resolveApproval pending rid r =
      (true, fun k => if k = rid then some (some r) else pending k) := by
    simp [resolveApproval, h]
  have h2 : (fun k => if k = rid then some (some r) else pending k) rid
      = some (some r) := by simp
  have h3 : (approvalTimeout pending rid).2 rid = none := by
    simp [approvalTimeout]
  refine ⟨by rw [h1], by rw [h1]; exact h2, ?_, ?_, rfl, h3, ?_, ?_, rfl⟩
  · intro r'
    rw [h1]
    simp [resolveApproval]
  · intro r' k
    rw [h1]
    simp [resolveApproval]
  · intro r'
    simp [resolveApproval, h3]
  · intro r' k
    simp [resolveApproval, h3]

/-- C5 witness: a concrete pending map with one unresolved request. -/
theorem c5_approval_resolution_and_timeout_witness :
    ((fun k => if k = "approval_1" then some none else none :
        PendingMap) "approval_1" = some none) ∧
    (resolveApproval
      (fun k => if k = "approval_1" then some none else none)
      "approval_1" "allow_once").1 = true := by
  refine ⟨by simp, ?_⟩
  exact (c5_approval_resolution_and_timeout
    (fun k => if k = "approval_1" then some none else none)
    "approval_1" "allow_once" (by simp)).1

/-- The trace produced by running the instrumented middleware chain:
enters in registration order, one dispatch, exits in reverse
registration order. -/
theorem buildChain_tracing_trace (names : List String) (e : Event)
    (tr : Trace) :
    buildChain (names.map tracingMW) tracingDispatch e tr =
      (e, tr ++ names.map (fun n => n ++ "-enter") ++ ["dispatch"] ++
        (names.reverse.map (fun n => n ++ "-exit"))) := by
  induction names generalizing tr with
  | nil => simp [buildChain, tracingDispatch]
  | cons n ns ih =>
    simp only [List.map_cons, buildChain, List.foldr_cons, tracingMW]
    have := ih (tr ++ [n ++ "-enter"])
    simp only [buildChain] at this
    rw [this]
    simp [List.append_assoc]

/-- C8: with middlewares `[A, B, C]` registered in that order, a single
`emit` of one event produces the trace `A-enter, B-enter, C-enter,
dispatch, C-exit, B-exit, A-exit`; in general, middleware
pre-processing runs in registration order and post-processing in
reverse registration order around the subscriber dispatch. -/
theorem c8_middleware_order :
    (∀ (names : List String) (e : Event),
      busEmitTrace names e =
        (e, names.map (fun n => n ++ "-enter") ++ ["dispatch"] ++
          (names.reverse.map (fun n => n ++ "-exit")))) ∧
    busEmitTrace ["A", "B", "C"] { type := "test", source := "main" } =
      ({ type := "test", source := "main" },
       ["A-enter", "B-enter", "C-enter", "dispatch",
        "C-exit", "B-exit", "A-exit"]) := by
  constructor
  · intro names e
    unfold busEmitTrace
    rw [buildChain_tracing_trace]
    simp
  · rfl

/-- C7: with exactly one registered channel named `"file"` (the file
channel, which is not external), routing any notification invokes the
file channel's `deliver` exactly once; and whenever some active
external channel's `deliver` returns `true`, no CLI channel (neither
external nor named `"file"`) is invoked. -/
theorem c7_route_file_once_and_external_priority
    (channels : List NChannel)
    (h1 : (channels.filter (fun c => c.name == "file")).length = 1)
    (h2 : ∀ c ∈ channels, c.name = "file" → c.is_external = false) :
    ((routeInvocations channels).filter
      (fun c => c.name == "file")).length = 1 ∧
    ((∃ c ∈ channels, c.is_external = true ∧ c.is_active = true ∧
        c.deliver_result = some true) →
      (routeInvocations channels).filter
        (fun c => !c.is_external && c.name != "file") = []) := by
  have hsplit : routeInvocations channels =
      (channels.filter (fun c => c.is_external)).filter
        (fun c => c.is_active) ++
      (if ((channels.filter (fun c => c.is_external)).filter
            (fun c => c.is_active)).any
              (fun c => c.deliver_result == some true) then []
       else (channels.filter
          (fun c => !c.is_external && c.name != "file")).filter
            (fun c => c.is_active)) ++
      channels.filter (fun c => c.name == "file") := rfl
  have hext_no_file : ∀ c ∈ (channels.filter
      (fun c => c.is_external)).filter (fun c => c.is_active),
      ¬((fun c : NChannel => c.name == "file") c = true) := by
    intro c hc
    simp only [List.mem_filter] at hc
    obtain ⟨⟨hmem, hext⟩, _⟩ := hc
    by_cases hn : c.name = "file"
    · rw [h2 c hmem hn] at hext
      cases hext
    · simp [hn]
  have hcli_no_file : ∀ c ∈ (channels.filter
      (fun c => !c.is_external && c.name != "file")).filter
        (fun c => c.is_active),
      ¬((fun c : NChannel => c.name == "file") c = true) := by
    intro c hc
    simp only [List.mem_filter, Bool.and_eq_true, bne_iff_ne] at hc
    obtain ⟨⟨_, _, hne⟩, _⟩ := hc
    simp [hne]
  have hfile_idem : (channels.filter
      (fun c => c.name == "file")).filter
        (fun c => c.name == "file") =
      channels.filter (fun c => c.name == "file") := by
    rw [List.filter_filter]
    simp only [Bool.and_self]
  constructor
  · rw [hsplit, List.filter_append, List.filter_append]
    have e1 := List.filter_eq_nil_iff.mpr hext_no_file
    have e2 : (if ((channels.filter (fun c => c.is_external)).filter
            (fun c => c.is_active)).any
              (fun c => c.deliver_result == some true) then ([] : List NChannel)
       else (channels.filter
          (fun c => !c.is_external && c.name != "file")).filter
            (fun c => c.is_active)).filter (fun c => c.name == "file") = [] := by
      by_cases hcond : ((channels.filter (fun c => c.is_external)).filter
            (fun c => c.is_active)).any
              (fun c => c.deliver_result == some true) = true
      · rw [if_pos hcond]
        rfl
      · rw [if_neg hcond]
        exact List.filter_eq_nil_iff.mpr hcli_no_file
    rw [e1, e2, hfile_idem]
    simpa using h1
  · rintro ⟨c, hc, hcext, hcact, hcdel⟩
    have hdel : ((channels.filter (fun c => c.is_external)).filter
        (fun c => c.is_active)).any
          (fun c => c.deliver_result == some true) = true := by
      apply List.any_eq_true.mpr
      refine ⟨c, List.mem_filter.mpr
        ⟨List.mem_filter.mpr ⟨hc, hcext⟩, hcact⟩, by simp [hcdel]⟩
    rw [hsplit, if_pos hdel, List.filter_append, List.filter_append]
    have e1 : ((channels.filter (fun c => c.is_external)).filter
        (fun c => c.is_active)).filter
          (fun c => !c.is_external && c.name != "file") = [] := by
      apply List.filter_eq_nil_iff.mpr
      intro d hd
      simp only [List.mem_filter] at hd
      obtain ⟨⟨_, hdext⟩, _⟩ := hd
      simp [hdext]
    have e3 : (channels.filter (fun c => c.name == "file")).filter
        (fun c => !c.is_external && c.name != "file") = [] := by
      apply List.filter_eq_nil_iff.mpr
      intro d hd
      simp only [List.mem_filter, beq_iff_eq] at hd
      simp [hd.2]
    rw [e1, e3]
    rfl

/-- C7 witness: one active external channel that delivers, one CLI
channel, one file channel. -/
theorem c7_route_file_once_and_external_priority_witness :
    (([⟨"telegram", true, true, some true⟩, ⟨"cli", false, true, some true⟩,
        ⟨"file", false, true, some true⟩] :
          List NChannel).filter (fun c => c.name == "file")).length = 1 ∧
    ((routeInvocations
        [⟨"telegram", true, true, some true⟩, ⟨"cli", false, true, some true⟩,
         ⟨"file", false, true, some true⟩]).filter
      (fun c => c.name == "file")).length = 1 := by
  refine ⟨by decide, ?_⟩
  exact (c7_route_file_once_and_external_priority
    [⟨"telegram", true, true, some true⟩, ⟨"cli", false, true, some true⟩,
     ⟨"file", false, true, some true⟩] (by decide) (by decide)).1

/-- The truncation loop returns the system message followed by the
longest suffix of length at most the starting window that fits the
budget — or the system message alone when no window fits. -/
theorem composeGo_spec (tc : List Message → Int) (budget : Int)
    (sysMsg : Message) (other : List Message) (n : Nat) :
    ∃ w : Nat, w ≤ n ∧
      composeGo tc budget [sysMsg] other n =
        sysMsg :: other.drop (other.length - w) ∧
      (0 < w → tc (sysMsg :: other.drop (other.length - w)) ≤ budget) ∧
      (∀ w', w < w' → w' ≤ n →
        ¬ tc (sysMsg :: other.drop (other.length - w')) ≤ budget) := by
  induction n with
  | zero =>
    refine ⟨0, le_refl 0, ?_, ?_, ?_⟩
    · simp [composeGo, List.drop_length]
    · intro h0
      exact absurd h0 (lt_irrefl 0)
    · intro w' h1 h2
      exact absurd (h1.trans_le h2) (lt_irrefl 0)
  | succ n ih =>
    by_cases hfit : tc ([sysMsg] ++ other.drop (other.length - (n + 1))) ≤ budget
    · refine ⟨n + 1, le_refl _, ?_, fun _ => ?_, ?_⟩
      · simp only [composeGo, if_pos hfit]
        simp
      · simpa using hfit
      · intro w' h1 h2
        exact absurd h2 (not_le.mpr h1)
    · obtain ⟨w, hw, heq, hfits, hmax⟩ := ih
      refine ⟨w, hw.trans (Nat.le_succ n), ?_, hfits, ?_⟩
      · simp only [composeGo, if_neg hfit]
        exact heq
      · intro w' h1 h2
        by_cases hw' : w' ≤ n
        · exact hmax w' h1 hw'
        · have hw'' : w' = n + 1 := by omega
          rw [hw'']
          simpa using hfit

/-- C6: with a non-empty system prompt, `compose` returns the full
transcript (system message plus all non-system messages) when it fits
the budget; otherwise the system message followed by a contiguous
suffix of the non-system messages, obtained by shrinking a window
counter down from `recent_window` (capped by the message count) and
stopping at the first window that fits — and the system message heads
the result in every case, in the worst case alone. -/
theorem c6_compose_front_truncation
    (tc : List Message → Int) (budget : Int)
    (system_prompt core_text episodic_text : String)
    (other : List Message) (recent_window : Nat)
    (h : system_prompt ≠ "") :
    (tc (Message.system (system_prompt ++ core_text ++ episodic_text) :: other)
        ≤ budget →
      compose tc budget system_prompt core_text episodic_text other
          recent_window =
        Message.system (system_prompt ++ core_text ++ episodic_text) ::
          other) ∧
    (¬ tc (Message.system (system_prompt ++ core_text ++ episodic_text) ::
        other) ≤ budget →
      ∃ w : Nat, w ≤ min recent_window other.length ∧
        compose tc budget system_prompt core_text episodic_text other
            recent_window =
          Message.system (system_prompt ++ core_text ++ episodic_text) ::
            other.drop (other.length - w) ∧
        (0 < w →
          tc (Message.system (system_prompt ++ core_text ++ episodic_text) ::
            other.drop (other.length - w)) ≤ budget) ∧
        (∀ w', w < w' → w' ≤ min recent_window other.length →
          ¬ tc (Message.system
              (system_prompt ++ core_text ++ episodic_text) ::
            other.drop (other.length - w')) ≤ budget)) ∧
    (compose tc budget system_prompt core_text episodic_text other
        recent_window).head? =
      some (Message.system (system_prompt ++ core_text ++ episodic_text)) := by
  have hsp : system_prompt ++ core_text ++ episodic_text ≠ "" :=
    string_append_ne_empty _ (string_append_ne_empty _ h)
  have hcompose : compose tc budget system_prompt core_text episodic_text
      other recent_window =
      if tc (Message.system (system_prompt ++ core_text ++ episodic_text) ::
          other) ≤ budget then
        Message.system (system_prompt ++ core_text ++ episodic_text) :: other
      else composeGo tc budget
        [Message.system (system_prompt ++ core_text ++ episodic_text)]
        other (min recent_window other.length) := by
    simp [compose, hsp]
  refine ⟨?_, ?_, ?_⟩
  · intro hfit
    rw [hcompose, if_pos hfit]
  · intro hnofit
    rw [hcompose, if_neg hnofit]
    obtain ⟨w, hw, heq, hfits, hmax⟩ := composeGo_spec tc budget
      (Message.system (system_prompt ++ core_text ++ episodic_text)) other
      (min recent_window other.length)
    exact ⟨w, hw, heq, hfits, hmax⟩
  · rw [hcompose]
    by_cases hfit : tc (Message.system
        (system_prompt ++ core_text ++ episodic_text) :: other) ≤ budget
    · rw [if_pos hfit]
      rfl
    · rw [if_neg hfit]
      obtain ⟨w, _, heq, _, _⟩ := composeGo_spec tc budget
        (Message.system (system_prompt ++ core_text ++ episodic_text)) other
        (min recent_window other.length)
      rw [heq]
      rfl

/-- C6 witness: a three-message session over a length-based token
counter with budget 2 and recent window 2. -/
theorem c6_compose_front_truncation_witness :
    ("sys" : String) ≠ "" ∧
    (compose (fun ms => (ms.length : Int)) 2 "sys" "" ""
        [⟨"user", "a"⟩, ⟨"user", "b"⟩, ⟨"user", "c"⟩] 2).head? =
      some (Message.system ("sys" ++ "" ++ "")) := by
  refine ⟨by decide, ?_⟩
  exact (c6_compose_front_truncation (fun ms => (ms.length : Int)) 2
    "sys" "" "" [⟨"user", "a"⟩, ⟨"user", "b"⟩, ⟨"user", "c"⟩] 2
    (by decide)).2.2

/-- If some capability in the list short-circuits, the `check_tool` loop
returns the first such capability's decision, whatever was accumulated
so far. -/
theorem checkToolGo_find_some (cfg : SecurityConfig) (rem : RememberedMap)
    (tool_name : String) :
    ∀ (caps : List String) (acc : Option SecurityDecision) (cap : String),
      caps.find? (shortCircuits cfg rem tool_name) = some cap →
      checkToolGo cfg rem tool_name caps acc =
        checkCapability cfg rem tool_name cap := by
  intro caps
  induction caps with
  | nil =>
    intro acc cap hfind
    simp at hfind
  | cons c rest ih =>
    intro acc cap hfind
    cases hsc : shortCircuits cfg rem tool_name c with
    | false =>
      rw [List.find?_cons_of_neg _ (by simp [hsc])] at hfind
      simp only [checkToolGo, hsc]
      exact ih _ cap hfind
    | true =>
      rw [List.find?_cons_of_pos _ hsc] at hfind
      cases hfind
      simp [checkToolGo, hsc]

/-- If no capability in a non-empty list short-circuits, the
`check_tool` loop returns the last capability's decision, whatever was
accumulated so far. -/
theorem checkToolGo_find_none (cfg : SecurityConfig) (rem : RememberedMap)
    (tool_name : String) :
    ∀ (caps : List String) (acc : Option SecurityDecision),
      caps.find? (shortCircuits cfg rem tool_name) = none →
      caps ≠ [] →
      ∃ last, caps.getLast? = some last ∧
        checkToolGo cfg rem tool_name caps acc =
          checkCapability cfg rem tool_name last := by
  intro caps
  induction caps with
  | nil =>
    intro acc _ hne
    exact absurd rfl hne
  | cons c rest ih =>
    intro acc hfind _
    have hsc : shortCircuits cfg rem tool_name c = false := by
      cases hsc : shortCircuits cfg rem tool_name c with
      | false => rfl
      | true =>
        rw [List.find?_cons_of_pos _ hsc] at hfind
        cases hfind
    have hrest : rest.find? (shortCircuits cfg rem tool_name) = none := by
      rw [List.find?_cons_of_neg _ (by simp [hsc])] at hfind
      exact hfind
    cases rest with
    | nil =>
      refine ⟨c, rfl, ?_⟩
      simp [checkToolGo, hsc]
    | cons c2 rest2 =>
      obtain ⟨last, hl, he⟩ :=
        ih (some (checkCapability cfg rem tool_name c)) hrest (by simp)
      refine ⟨last, ?_, ?_⟩
      · rw [List.getLast?_cons_cons]
        exact hl
      · simp only [checkToolGo, hsc]
        exact he

/-- C4: each capability is decided by the first matching policy layer
in the precedence order never_allow ≻ remembered decision ≻ auto_allow
≻ always_ask ≻ unknown capability (treated like always_ask); and for a
tool with a non-empty required-capability list, `check_tool` returns
the decision of the first capability that is denied or requires
approval, and when every capability allows it returns the last
capability's allow decision (preserving its `remembered` flag and all
other metadata). -/
theorem c4_layered_security_evaluation
    (cfg : SecurityConfig) (rem : RememberedMap) (tool_name : String)
    (caps : List String) (h : caps ≠ []) :
    (∀ cap : String,
      (cap ∈ cfg.never_allow →
        checkCapability cfg rem tool_name cap =
          { allowed := false
            reason := "policy:never_allow (" ++ cap ++ ")"
            requires_approval := false }) ∧
      (cap ∉ cfg.never_allow →
        rem (tool_name, cap) = some "allow_always" →
        checkCapability cfg rem tool_name cap =
          { allowed := true
            reason := "user:remembered_allow (" ++ cap ++ ")"
            remembered := true }) ∧
      (cap ∉ cfg.never_allow →
        rem (tool_name, cap) = some "deny_always" →
        checkCapability cfg rem tool_name cap =
          { allowed := false
            reason := "user:remembered_deny (" ++ cap ++ ")"
            requires_approval := false
            remembered := true }) ∧
      (cap ∉ cfg.never_allow →
        (∀ v, rem (tool_name, cap) = some v →
          v ≠ "allow_always" ∧ v ≠ "deny_always") →
        cap ∈ cfg.auto_allow →
        checkCapability cfg rem tool_name cap =
          { allowed := true
            reason := "policy:auto_allow (" ++ cap ++ ")" }) ∧
      (cap ∉ cfg.never_allow →
        (∀ v, rem (tool_name, cap) = some v →
          v ≠ "allow_always" ∧ v ≠ "deny_always") →
        cap ∉ cfg.auto_allow →
        cap ∈ cfg.always_ask →
        checkCapability cfg rem tool_name cap =
          { allowed := false
            reason := "policy:always_ask (" ++ cap ++ ")"
            requires_approval := true }) ∧
      (cap ∉ cfg.never_allow →
        (∀ v, rem (tool_name, cap) = some v →
          v ≠ "allow_always" ∧ v ≠ "deny_always") →
        cap ∉ cfg.auto_allow →
        cap ∉ cfg.always_ask →
        checkCapability cfg rem tool_name cap =
          { allowed := false
            reason := "policy:unknown_capability (" ++ cap ++ ")"
            requires_approval := true })) ∧
    (∀ cap, caps.find? (shortCircuits cfg rem tool_name) = some cap →
      checkTool cfg rem tool_name caps =
        checkCapability cfg rem tool_name cap) ∧
    (caps.find? (shortCircuits cfg rem tool_name) = none →
      ∃ last, caps.getLast? = some last ∧
        checkTool cfg rem tool_name caps =
          checkCapability cfg rem tool_name last) := by
  have hne : caps.isEmpty = false := by
    cases caps with
    | nil => exact absurd rfl h
    | cons c rest => rfl
  have hct : checkTool cfg rem tool_name caps =
      checkToolGo cfg rem tool_name caps none := by
    simp [checkTool, hne]
  refine ⟨?_, ?_, ?_⟩
  · intro cap
    refine ⟨?_, ?_, ?_, ?_, ?_, ?_⟩
    · intro h1
      simp [checkCapability, h1]
    · intro h1 h2
      simp [checkCapability, h1, h2]
    · intro h1 h2
      simp [checkCapability, h1, h2]
    · intro h1 h2 h3
      cases hrem : rem (tool_name, cap) with
      | none =>
        simp [checkCapability, h1, hrem,
          checkCapability.checkCapabilityTail, h3]
      | some v =>
        obtain ⟨hv1, hv2⟩ := h2 v hrem
        simp [checkCapability, h1, hrem, hv1, hv2,
          checkCapability.checkCapabilityTail, h3]
    · intro h1 h2 h3 h4
      cases hrem : rem (tool_name, cap) with
      | none =>
        simp [checkCapability, h1, hrem,
          checkCapability.checkCapabilityTail, h3, h4]
      | some v =>
        obtain ⟨hv1, hv2⟩ := h2 v hrem
        simp [checkCapability, h1, hrem, hv1, hv2,
          checkCapability.checkCapabilityTail, h3, h4]
    · intro h1 h2 h3 h4
      cases hrem : rem (tool_name, cap) with
      | none =>
        simp [checkCapability, h1, hrem,
          checkCapability.checkCapabilityTail, h3, h4]
      | some v =>
        obtain ⟨hv1, hv2⟩ := h2 v hrem
        simp [checkCapability, h1, hrem, hv1, hv2,
          checkCapability.checkCapabilityTail, h3, h4]
  · intro cap hfind
    rw [hct]
    exact checkToolGo_find_some cfg rem tool_name caps none cap hfind
  · intro hfind
    rw [hct]
    exact checkToolGo_find_none cfg rem tool_name caps none hfind h

/-- C4 witness: one capability in `auto_allow`, no remembered
decisions. -/
theorem c4_layered_security_evaluation_witness :
    (["file:read"] : List String) ≠ [] ∧
    checkTool ⟨["file:read"], [], []⟩ (fun _ => none) "read_file"
        ["file:read"] =
      { allowed := true, reason := "policy:auto_allow (file:read)" } := by
  refine ⟨by simp, ?_⟩
  obtain ⟨-, -, hnone⟩ := c4_layered_security_evaluation
    ⟨["file:read"], [], []⟩ (fun _ => none) "read_file" ["file:read"]
    (by simp)
  obtain ⟨last, hl, he⟩ := hnone (by rfl)
  simp only [List.getLast?_singleton, Option.some_inj] at hl
  rw [he, ← hl]
  rfl

end Arc
